import Mathlib

set_option maxRecDepth 8000

/-!
Shallow embedding of the document ingestion pipeline of `resume_agent/tools.py`:
UTF-8 text decoding (`_parse_content`'s fallback branch), extension dispatch,
recursive Drive folder walking (`_list_files_recursively`), per-file download
with retry (`_read_drive_file_content`), and the orchestrating tool
(`load_and_parse_drive_contents`), together with theorems checking the
specification's claims about them.

Bytes are modelled as `List Nat` (each element < 256 where relevant), text as
`List Nat` of Unicode code points, and external collaborators (Drive API,
PyMuPDF, python-docx) as explicit oracle parameters whose failure modes are
`Except` values standing for raised exceptions.
-/

/-! ## Byte-level UTF-8 codec

Models Python `bytes.decode('utf-8')` (strict) and `str.encode('utf-8')`.
The decoder is strict: it rejects overlong encodings, surrogate code points,
code points above U+10FFFF, lone continuation bytes and truncated sequences,
exactly as CPython's strict UTF-8 codec does. -/

/-- Is `b` a UTF-8 continuation byte (`0x80 ≤ b < 0xC0`)? -/
def isCont (b : Nat) : Prop := 0x80 ≤ b ∧ b < 0xC0

instance (b : Nat) : Decidable (isCont b) := by unfold isCont; infer_instance

/-- UTF-8 encoding of a single Unicode code point, as a list of bytes. -/
def utf8EncodeCp (c : Nat) : List Nat :=
  if c < 0x80 then [c]
  else if c < 0x800 then [0xC0 + c / 64, 0x80 + c % 64]
  else if c < 0x10000 then [0xE0 + c / 4096, 0x80 + (c / 64) % 64, 0x80 + c % 64]
  else [0xF0 + c / 262144, 0x80 + (c / 4096) % 64, 0x80 + (c / 64) % 64, 0x80 + c % 64]

/-- UTF-8 encoding of a sequence of code points. -/
def utf8EncodeCps (s : List Nat) : List Nat := s.flatMap utf8EncodeCp

/-- Decode the tail of a two-byte UTF-8 sequence with lead byte `b`. -/
def decode2 (b : Nat) : List Nat → Option (Nat × List Nat)
  | b1 :: r => if isCont b1 then some ((b - 0xC0) * 64 + (b1 - 0x80), r) else none
  | [] => none

/-- Decode the tail of a three-byte UTF-8 sequence with lead byte `b`. -/
def decode3 (b : Nat) : List Nat → Option (Nat × List Nat)
  | b1 :: b2 :: r =>
    if isCont b1 ∧ isCont b2 then
      if (b - 0xE0) * 4096 + (b1 - 0x80) * 64 + (b2 - 0x80) < 0x800 then none
      else if 0xD800 ≤ (b - 0xE0) * 4096 + (b1 - 0x80) * 64 + (b2 - 0x80) ∧
          (b - 0xE0) * 4096 + (b1 - 0x80) * 64 + (b2 - 0x80) < 0xE000 then none
      else some ((b - 0xE0) * 4096 + (b1 - 0x80) * 64 + (b2 - 0x80), r)
    else none
  | _ => none

/-- Decode the tail of a four-byte UTF-8 sequence with lead byte `b`. -/
def decode4 (b : Nat) : List Nat → Option (Nat × List Nat)
  | b1 :: b2 :: b3 :: r =>
    if isCont b1 ∧ isCont b2 ∧ isCont b3 then
      if (b - 0xF0) * 262144 + (b1 - 0x80) * 4096 + (b2 - 0x80) * 64 + (b3 - 0x80) <
          0x10000 then none
      else if (b - 0xF0) * 262144 + (b1 - 0x80) * 4096 + (b2 - 0x80) * 64 + (b3 - 0x80) <
          0x110000 then
        some ((b - 0xF0) * 262144 + (b1 - 0x80) * 4096 + (b2 - 0x80) * 64 + (b3 - 0x80), r)
      else none
    else none
  | _ => none

/-- Decode one UTF-8 scalar from the front of a byte list: returns the code
point and the remaining bytes, or `none` on malformed input (strict codec). -/
def decodeOne : List Nat → Option (Nat × List Nat)
  | [] => none
  | b :: rest =>
    if b < 0x80 then some (b, rest)
    else if b < 0xC2 then none
    else if b < 0xE0 then decode2 b rest
    else if b < 0xF0 then decode3 b rest
    else if b < 0xF5 then decode4 b rest
    else none

/-- Fuel-driven UTF-8 decoding loop; `fuel ≥ length` makes it total. -/
def decodeLoop : Nat → List Nat → Option (List Nat)
  | _, [] => some []
  | 0, _ :: _ => none
  | fuel + 1, b :: rest =>
    match decodeOne (b :: rest) with
    | none => none
    | some (c, r) => (decodeLoop fuel r).map (c :: ·)

/-- Strict UTF-8 decoding of a whole byte list to code points; `none` models a
raised `UnicodeDecodeError`. -/
def utf8DecodeCps (l : List Nat) : Option (List Nat) := decodeLoop l.length l

/-- A code point is a Unicode scalar value: in range and not a surrogate. -/
def ValidCp (c : Nat) : Prop := c < 0xD800 ∨ (0xE000 ≤ c ∧ c < 0x110000)

instance (c : Nat) : Decidable (ValidCp c) := by unfold ValidCp; infer_instance

/-! ## Python-style string primitives

The Python code manipulates `str` values with `lower`, `endswith`, `split`,
`strip` and the `in` substring test. These are modelled on `List Char`
(respectively `List Nat` for decoded text) with ASCII case mapping, which is
what the extension and URL literals in the source exercise. -/

/-- Does the first list occur as a leading block of the second? -/
def listPre {α : Type} [BEq α] : List α → List α → Bool
  | [], _ => true
  | _ :: _, [] => false
  | a :: as, b :: bs => a == b && listPre as bs

/-- Python's substring operator `needle in hay` (for non-empty needles). -/
def containsSub {α : Type} [BEq α] (needle : List α) : List α → Bool
  | [] => listPre needle []
  | a :: rest => listPre needle (a :: rest) || containsSub needle rest

/-- Python `str.split(sep)` on character lists, fuel-driven so that it is
structurally recursive; `fuel ≥ length` makes it total. -/
def splitListF (sep : List Char) : Nat → List Char → List (List Char)
  | _, [] => [[]]
  | 0, s => [s]
  | fuel + 1, c :: rest =>
    if listPre sep (c :: rest) && !sep.isEmpty then
      [] :: splitListF sep fuel ((c :: rest).drop sep.length)
    else
      match splitListF sep fuel rest with
      | [] => [[c]]
      | h :: t => (c :: h) :: t

/-- Python `s.split(sep)` (non-overlapping, left to right). -/
def splitL (sep s : List Char) : List (List Char) := splitListF sep (s.length + 1) s

/-- ASCII lower-casing of one character, as Python `str.lower` acts on the
ASCII range used by the extension dispatch. -/
def lowerChar (c : Char) : Char :=
  if 'A' ≤ c ∧ c ≤ 'Z' then Char.ofNat (c.toNat + 32) else c

/-- Python `str.lower()` (ASCII fragment). -/
def pyLower (s : String) : String := String.mk (s.data.map lowerChar)

/-- Python `s.endswith(suf)`: `suf` reversed is a leading block of `s`
reversed. -/
def pyEndsWith (s suf : String) : Bool := listPre suf.data.reverse s.data.reverse

/-- Is this character one of the ASCII whitespace characters removed by
Python `str.strip()`? -/
def pySpace (c : Char) : Bool :=
  c == ' ' || c == '\t' || c == '\n' || c == '\r' || c == '\x0b' || c == '\x0c'

/-- Python `str.strip()` (ASCII whitespace fragment). -/
def pyStrip (s : List Char) : List Char :=
  ((s.dropWhile pySpace).reverse.dropWhile pySpace).reverse

/-- Code points of a string literal, the representation used for decoded text
and exception messages. -/
def cps (s : String) : List Nat := s.data.map Char.toNat

/-! ## Content decoder: `_parse_content`

Dispatches on the lower-cased filename extension. PyMuPDF (`fitz.open` plus
per-page `get_text`) and python-docx (`docx.Document` paragraphs) are external
libraries, so they enter as oracle parameters; a raised exception is an
`Except.error` carrying the exception text. The fallback branch is the strict
UTF-8 decode with the literal unsupported-type marker from the source. -/

/-- Result of `fitz.open`: either a raised exception or a document, i.e. the
sequence of its pages, each page's `get_text()` being either a raised
exception or extracted text. -/
def PdfOracle : Type := List Nat → Except (List Nat) (List (Except (List Nat) (List Nat)))

/-- Result of `docx.Document(...)`: a raised exception or the paragraph
texts in document order. -/
def DocxOracle : Type := List Nat → Except (List Nat) (List (List Nat))

/-- Python `"".join(page.get_text() for page in doc)`: pages are concatenated
in order, and the first page whose extraction raises aborts the whole join
with that exception. -/
def joinPages (acc : List Nat) : List (Except (List Nat) (List Nat)) → Except (List Nat) (List Nat)
  | [] => .ok acc
  | .error e :: _ => .error e
  | .ok t :: rest => joinPages (acc ++ t) rest

/-- The literal fallback-failure marker returned by `_parse_content`. -/
def unsupportedMarker : List Nat := cps "Unsupported file type: Could not decode as text."

/-- Embedding of `_parse_content(filename, content)`: extension dispatch on
the lower-cased filename; `.pdf` joins page texts, `.docx` joins paragraphs
with a newline, anything else attempts a strict UTF-8 decode and yields the
unsupported-type marker when the decode raises. -/
def parse_content (pdfOpen : PdfOracle) (docxParse : DocxOracle)
    (filename : String) (content : List Nat) : Except (List Nat) (List Nat) :=
  if pyEndsWith (pyLower filename) ".pdf" then
    match pdfOpen content with
    | .error e => .error e
    | .ok pages => joinPages [] pages
  else if pyEndsWith (pyLower filename) ".docx" then
    match docxParse content with
    | .error e => .error e
    | .ok paras => .ok (List.intercalate (cps "\n") paras)
  else
    match utf8DecodeCps content with
    | some t => .ok t
    | none => .ok unsupportedMarker

/-! ## Folder walker: `_list_files_recursively`

A Drive folder is a paginated listing: a list of pages, each page either an
`HttpError` raised by `files().list().execute()` or a list of entries, each
entry a plain file or a sub-folder (recognised in the source by its
`mimeType`). On a page error the source logs and does `return []`, discarding
everything accumulated for that folder, while callers continue unharmed. -/

/-- A discovered file: its `name` and Drive `id`. -/
structure DriveFile where
  name : String
  id : String
deriving DecidableEq

/-- A listing entry: a regular file or a sub-folder with its own pages. -/
inductive DEntry : Type where
  | file (name id : String) : DEntry
  | folder (pages : List (Except String (List DEntry))) : DEntry

mutual

/-- Walk one listing entry: a file contributes itself, a folder contributes
its recursive walk. -/
def walkEntry : DEntry → List DriveFile
  | .file n i => [⟨n, i⟩]
  | .folder pages => walkPages [] pages

/-- Walk the successive pages of one folder, accumulating results; a page
error makes the whole folder return `[]`, exactly like the source's
`return []` inside the pagination loop. -/
def walkPages (acc : List DriveFile) : List (Except String (List DEntry)) → List DriveFile
  | [] => acc
  | .error _ :: _ => []
  | .ok entries :: rest => walkPages (acc ++ walkEntries entries) rest

/-- Walk the entries of one page in listing order. -/
def walkEntries : List DEntry → List DriveFile
  | [] => []
  | e :: es => walkEntry e ++ walkEntries es

end

/-! ## Download with retry: `_read_drive_file_content`

The body iterates `for attempt in range(max_retries + 1)`. Before each retry
it sleeps `attempt * 2` time units (recorded in `waits`); an attempt's
download is an oracle giving, per attempt index, either a raised exception or
the list of streamed chunks, whose concatenation is the accumulated content.
Falling off the loop (impossible when `max_retries ≥ 0`) is Python's implicit
`return None`, modelled as `none`. -/

/-- An attempt oracle: for each attempt index, a raised exception or the
chunks streamed by `MediaIoBaseDownload`. -/
def AttemptOracle : Type := Nat → Except (List Nat) (List (List Nat))

/-- Observable outcome of `_read_drive_file_content`: the returned status
dict and the sleeps performed before retries. -/
structure ReadOutcome where
  result : Except (List Nat) (List Nat)
  waits : List Nat

/-- The retry loop over the remaining attempt indices. -/
def readGo (attempts : AttemptOracle) (maxR : Nat) :
    List Nat → List Nat → Option ReadOutcome
  | [], _ => none
  | attempt :: restAttempts, waits =>
    let waits2 := if 0 < attempt then waits ++ [attempt * 2] else waits
    match attempts attempt with
    | .ok chunks => some ⟨.ok chunks.flatten, waits2⟩
    | .error e =>
      if attempt = maxR then
        some ⟨.error (cps ("Failed to download after " ++ toString (maxR + 1) ++
          " attempts: ") ++ e), waits2⟩
      else readGo attempts maxR restAttempts waits2

/-- Embedding of `_read_drive_file_content` with retry bound `maxR`
(`max_retries`, 2 in the source's default and at its call site). -/
def read_drive_file_content (attempts : AttemptOracle) (maxR : Nat) : Option ReadOutcome :=
  readGo attempts maxR (List.range (maxR + 1)) []

/-! ## Ingestion pipeline: `load_and_parse_drive_contents`

Authentication, the folder tree and the per-file download attempts are
oracles bundled in an environment. The function returns the value given back
to the agent (a summary string on success, a `{status: error, message}` dict
otherwise) together with the session-state write it performed (`none` when
nothing was stored). -/

/-- One entry of `parsed_files` in the stored report. -/
structure FileInfo where
  filename : String
  file_id : String
  content_length : Nat
  text_content : List Nat
deriving DecidableEq

/-- One entry of `failed_files` in the stored report. -/
structure FailedFile where
  filename : String
  error : List Nat
deriving DecidableEq

/-- The `drive_data` report stored into session state. -/
structure DriveData where
  parsed_files : List FileInfo
  failed_files : List FailedFile
  total_files : Nat
  successful_files : Nat
deriving DecidableEq

/-- Value returned to the agent: a summary string, or the structured
`{status: "error", message: ...}` dictionary. -/
inductive LoadResult : Type where
  | success (summary : String) : LoadResult
  | errorDict (message : String) : LoadResult
deriving DecidableEq

/-- Environment of external effects: credential acquisition (with `build`),
the folder tree keyed by folder id, the per-file download attempts, and the
two format parsers. -/
structure PipelineEnv where
  auth : Except String Unit
  tree : String → List (Except String (List DEntry))
  attempts : String → AttemptOracle
  pdfOpen : PdfOracle
  docxParse : DocxOracle

/-- Folder-ID extraction from the user-supplied URL: the `/folders/` shape,
the `/d/` shape, then the bare-identifier fallback, via Python `split`
surgery exactly as in the source. -/
def extractFolderId (url : String) : String :=
  let u := url.data
  if containsSub ("/folders/".data) u then
    String.mk ((splitL ("/".data)
      ((splitL ("?".data) ((splitL ("/folders/".data) u).getLastD [])).headD [])).headD [])
  else if containsSub ("/d/".data) u then
    String.mk ((splitL ("/".data) ((splitL ("/d/".data) u).getLastD [])).headD [])
  else
    String.mk (pyStrip u)

/-- Per-file body of the processing loop: download (retry bound 2), surface a
failed download as an `IOError` with the prefixed message, parse, re-raise a
text containing the unsupported-type phrase as a `TypeError(text)`, and
otherwise build the `file_info` record. The `error` branch is the loop's
`except` clause appending to `failed_files`. -/
def processFile (env : PipelineEnv) (f : DriveFile) : Except FailedFile FileInfo :=
  match read_drive_file_content (env.attempts f.id) 2 with
  | none => .error ⟨f.name, cps "TypeError: NoneType is not subscriptable"⟩
  | some outcome =>
    match outcome.result with
    | .error msg => .error ⟨f.name, cps "Failed to read file content: " ++ msg⟩
    | .ok content =>
      match parse_content env.pdfOpen env.docxParse f.name content with
      | .error e => .error ⟨f.name, e⟩
      | .ok text =>
        if containsSub (cps "Unsupported file type") text then .error ⟨f.name, text⟩
        else .ok ⟨f.name, f.id, text.length, text⟩

/-- The processing loop over the discovered files, in discovery order; each
file appends to exactly one of the two lists. -/
def processAll (env : PipelineEnv) : List DriveFile → List FileInfo × List FailedFile
  | [] => ([], [])
  | f :: rest =>
    let r := processAll env rest
    match processFile env f with
    | .ok fi => (fi :: r.1, r.2)
    | .error ff => (r.1, ff :: r.2)

/-- Embedding of `load_and_parse_drive_contents`: returns the value handed to
the agent and the session-state write performed (`none` when no report was
stored). The `errorDict` messages are the source's literal strings, the
first and last going through the outer `except` clause's
`f"A critical error occurred: {e}"` formatting. -/
def load_and_parse_drive_contents (env : PipelineEnv) (folder_url : String) :
    LoadResult × Option DriveData :=
  match env.auth with
  | .error e => (.errorDict ("A critical error occurred: " ++ e), none)
  | .ok _ =>
    let folder_id := extractFolderId folder_url
    if folder_id = "" then
      (.errorDict ("A critical error occurred: " ++
        "Could not extract a valid Folder ID from the provided URL."), none)
    else
      let all_files := walkPages [] (env.tree folder_id)
      if all_files = [] then
        (.errorDict "No files found in the folder or its subfolders.", none)
      else
        let pr := processAll env all_files
        (.success ("Successfully processed " ++ toString pr.1.length ++ " files. " ++
          toString pr.2.length ++ " failed."),
         some ⟨pr.1, pr.2, all_files.length, pr.1.length⟩)

/-- Session state after a run: the write (when one happened) replaces the
slot wholesale, otherwise the previous content stays. -/
def ingestState (env : PipelineEnv) (folder_url : String) (s : Option DriveData) :
    Option DriveData :=
  match (load_and_parse_drive_contents env folder_url).2 with
  | none => s
  | some d => some d

/-! ## Bounded-parallel fetch discipline -/

/-- Modelled from the spec: the bounded-parallel fetch discipline (fixed-size
worker pool, reference capacity 10) is absent from the sources, where
`tools.py` notes that parallel processing was removed; only the sequential
loop remains. Following the spec's words, every discovered file is fetched by
some worker and completions are collected as they happen, so the observable
result is the per-file `(filename, payload-or-null)` pairs arranged in
completion order. -/
def boundedParallelFetch (fetch : DriveFile → Option (List Nat)) (files : List DriveFile)
    (order : List Nat) : List (String × Option (List Nat)) :=
  order.map fun i => ((files.getD i ⟨"", ""⟩).name, fetch (files.getD i ⟨"", ""⟩))

/-- Modelled from the spec: a completion order is feasible for a pool of
capacity `cap` over `n` submitted tasks when it is a permutation of the task
indices and the task completing at position `p` is among the first `cap + p`
submitted (a worker starts task `cap + p` only after `p + 1` completions). -/
def poolFeasible (cap : Nat) (order : List Nat) (n : Nat) : Prop :=
  order.Perm (List.range n) ∧ ∀ p, p < order.length → order.getD p 0 < cap + p

/-- Modelled from the spec: after all fetches have joined, decoding runs
sequentially over the collected pairs. -/
def parallelIngest {α : Type} (fetch : DriveFile → Option (List Nat))
    (decode : String → Option (List Nat) → α) (files : List DriveFile)
    (order : List Nat) : List α :=
  (boundedParallelFetch fetch files order).map fun pr => decode pr.1 pr.2

/-! ## Classifier helpers and concrete fixtures

The two projections below name the routing of one processed file into
`parsed_files` respectively `failed_files`; the remaining definitions are
concrete oracles and environments used to instantiate the theorems. -/

/-- Projection of a processing result onto the `parsed_files` side. -/
def okPart (r : Except FailedFile FileInfo) : Option FileInfo :=
  match r with
  | .ok fi => some fi
  | .error _ => none

/-- Projection of a processing result onto the `failed_files` side. -/
def errPart (r : Except FailedFile FileInfo) : Option FailedFile :=
  match r with
  | .error ff => some ff
  | .ok _ => none

/-- A `fitz.open` that always raises. -/
def failPdf : PdfOracle := fun _ => .error (cps "cannot open pdf")

/-- A `docx.Document` that always raises. -/
def failDocx : DocxOracle := fun _ => .error (cps "cannot open docx")

/-- A document with three pages whose middle page's `get_text()` raises. -/
def pageBoomPdf : PdfOracle :=
  fun _ => .ok [.ok (cps "a"), .error (cps "boom"), .ok (cps "b")]

/-- Download attempts that always succeed with the bytes of `"hi"`. -/
def okAttempts : String → AttemptOracle := fun _ _ => .ok [[104, 105]]

/-- Download attempts that fail on the first two tries and then stream two
chunks. -/
def flakyAttempts : AttemptOracle :=
  fun n => if n < 2 then .error (cps "err") else .ok [[1, 2], [3]]

/-- Download attempts that fail every time, with distinct messages. -/
def failAttempts : AttemptOracle := fun n => .error (cps ("e" ++ toString n))

/-- A Drive with a folder `ROOT` holding one text file. -/
def sampleTree : String → List (Except String (List DEntry)) :=
  fun fid => if fid = "ROOT" then [.ok [.file "a.txt" "f1"]] else []

/-- A Drive with a folder `ROOT2` holding one other text file. -/
def sampleTree2 : String → List (Except String (List DEntry)) :=
  fun fid => if fid = "ROOT2" then [.ok [.file "b.txt" "f2"]] else []

/-- An environment whose downloads succeed and whose folder `ROOT` holds one
text file. -/
def sampleEnv : PipelineEnv := ⟨.ok (), sampleTree, okAttempts, failPdf, failDocx⟩

/-- A second successful environment, over folder `ROOT2`. -/
def sampleEnv2 : PipelineEnv := ⟨.ok (), sampleTree2, okAttempts, failPdf, failDocx⟩

/-- An environment whose PDF parser fails on the middle page. -/
def pageBoomEnv : PipelineEnv :=
  ⟨.ok (), fun _ => [], fun _ _ => .ok [], pageBoomPdf, failDocx⟩

/-- An environment whose only file is a text file containing the
unsupported-type phrase inside ordinary content. -/
def markerEnv : PipelineEnv :=
  ⟨.ok (), fun fid => if fid = "ROOT" then [.ok [.file "note.txt" "f9"]] else [],
   fun _ _ => .ok [utf8EncodeCps (cps "this resume contains Unsupported file type as text")],
   failPdf, failDocx⟩

/-- Fifteen files, for the bounded-parallel instance of the spec. -/
def filesFifteen : List DriveFile :=
  [⟨"r01", "i01"⟩, ⟨"r02", "i02"⟩, ⟨"r03", "i03"⟩, ⟨"r04", "i04"⟩, ⟨"r05", "i05"⟩,
   ⟨"r06", "i06"⟩, ⟨"r07", "i07"⟩, ⟨"r08", "i08"⟩, ⟨"r09", "i09"⟩, ⟨"r10", "i10"⟩,
   ⟨"r11", "i11"⟩, ⟨"r12", "i12"⟩, ⟨"r13", "i13"⟩, ⟨"r14", "i14"⟩, ⟨"r15", "i15"⟩]

/-- Decoding a two-byte tail consumes at least one byte. -/
theorem decode2_length {b : Nat} {l : List Nat} {c : Nat} {r : List Nat}
    (h : decode2 b l = some (c, r)) : r.length + 1 ≤ l.length := by
  cases l with
  | nil => simp [decode2] at h
  | cons b1 t =>
    simp only [decode2] at h
    split_ifs at h
    cases h
    simp

/-- Decoding a three-byte tail consumes at least one byte. -/
theorem decode3_length {b : Nat} {l : List Nat} {c : Nat} {r : List Nat}
    (h : decode3 b l = some (c, r)) : r.length + 1 ≤ l.length := by
  cases l with
  | nil => simp [decode3] at h
  | cons b1 t =>
    cases t with
    | nil => simp [decode3] at h
    | cons b2 t2 =>
      simp only [decode3] at h
      split_ifs at h
      cases h
      simp

/-- Decoding a four-byte tail consumes at least one byte. -/
theorem decode4_length {b : Nat} {l : List Nat} {c : Nat} {r : List Nat}
    (h : decode4 b l = some (c, r)) : r.length + 1 ≤ l.length := by
  cases l with
  | nil => simp [decode4] at h
  | cons b1 t =>
    cases t with
    | nil => simp [decode4] at h
    | cons b2 t2 =>
      cases t2 with
      | nil => simp [decode4] at h
      | cons b3 t3 =>
        simp only [decode4] at h
        split_ifs at h
        cases h
        simp

/-- Decoding one scalar strictly shrinks the byte list. -/
theorem decodeOne_length {l : List Nat} {c : Nat} {r : List Nat}
    (h : decodeOne l = some (c, r)) : r.length < l.length := by
  cases l with
  | nil => simp [decodeOne] at h
  | cons b rest =>
    simp only [decodeOne] at h
    split_ifs at h with h1 h2 h3 h4 h5
    · cases h; simp
    · have := decode2_length h; simp; omega
    · have := decode3_length h; simp; omega
    · have := decode4_length h; simp; omega

/-- The decode loop is fuel-irrelevant above the list length. -/
theorem decodeLoop_fuel : ∀ (fuel fuel' : Nat) (l : List Nat),
    l.length ≤ fuel → l.length ≤ fuel' → decodeLoop fuel l = decodeLoop fuel' l := by
  intro fuel
  induction fuel using Nat.strong_induction_on with
  | _ fuel ih =>
    intro fuel' l hf hf'
    match l with
    | [] => cases fuel <;> cases fuel' <;> rfl
    | b :: rest =>
      match fuel, fuel' with
      | f + 1, f' + 1 =>
        simp only [decodeLoop]
        cases hone : decodeOne (b :: rest) with
        | none => rfl
        | some cr =>
          obtain ⟨c, r⟩ := cr
          have hlen := decodeOne_length hone
          have h1 : r.length ≤ f := by simp at hf hlen ⊢; omega
          have h2 : r.length ≤ f' := by simp at hf' hlen ⊢; omega
          dsimp only
          rw [ih f (by omega) f' r h1 (by omega)]

/-- Unfolding rule: a successful single-scalar decode peels off one code point. -/
theorem utf8DecodeCps_cons_some {l : List Nat} {c : Nat} {r : List Nat}
    (h : decodeOne l = some (c, r)) :
    utf8DecodeCps l = (utf8DecodeCps r).map (c :: ·) := by
  match l with
  | [] => simp [decodeOne] at h
  | b :: rest =>
    have hlen := decodeOne_length h
    simp only [utf8DecodeCps, List.length_cons, decodeLoop, h]
    rw [decodeLoop_fuel rest.length r.length r (by simp at hlen; omega) (by omega)]

/-- Unfolding rule: a malformed head makes the whole decode fail. -/
theorem utf8DecodeCps_cons_none {b : Nat} {rest : List Nat}
    (h : decodeOne (b :: rest) = none) : utf8DecodeCps (b :: rest) = none := by
  simp only [utf8DecodeCps, List.length_cons, decodeLoop, h]

/-- Decoding the empty byte string yields the empty text. -/
theorem utf8DecodeCps_nil : utf8DecodeCps [] = some [] := rfl

/-- Decoding recovers an encoded scalar and leaves the tail untouched. -/
theorem decodeOne_encodeCp (c : Nat) (hv : ValidCp c) (rest : List Nat) :
    decodeOne (utf8EncodeCp c ++ rest) = some (c, rest) := by
  rcases Nat.lt_or_ge c 0x80 with h1 | h1
  · simp only [utf8EncodeCp, if_pos h1, List.cons_append, List.nil_append, decodeOne,
      if_pos h1]
  · have n1 : ¬ (c < 0x80) := by omega
    rcases Nat.lt_or_ge c 0x800 with h2 | h2
    · have e1 : ¬ (0xC0 + c / 64 < 0x80) := by omega
      have e2 : ¬ (0xC0 + c / 64 < 0xC2) := by omega
      have e3 : 0xC0 + c / 64 < 0xE0 := by omega
      have e4 : isCont (0x80 + c % 64) := by unfold isCont; omega
      have ecp : (0xC0 + c / 64 - 0xC0) * 64 + (0x80 + c % 64 - 0x80) = c := by omega
      simp only [utf8EncodeCp, if_neg n1, if_pos h2, List.cons_append,
        List.nil_append, decodeOne, if_neg e1, if_neg e2, if_pos e3, decode2,
        if_pos e4, ecp]
    · have n2 : ¬ (c < 0x800) := by omega
      rcases Nat.lt_or_ge c 0x10000 with h3 | h3
      · have hb1 : c / 64 / 64 = c / 4096 := by
          rw [Nat.div_div_eq_div_mul]
        have e1 : ¬ (0xE0 + c / 4096 < 0x80) := by omega
        have e2 : ¬ (0xE0 + c / 4096 < 0xC2) := by omega
        have e3 : ¬ (0xE0 + c / 4096 < 0xE0) := by omega
        have e4 : 0xE0 + c / 4096 < 0xF0 := by omega
        have e5 : isCont (0x80 + (c / 64) % 64) := by unfold isCont; omega
        have e6 : isCont (0x80 + c % 64) := by unfold isCont; omega
        have e56 : isCont (0x80 + (c / 64) % 64) ∧ isCont (0x80 + c % 64) := ⟨e5, e6⟩
        have ecp : (0xE0 + c / 4096 - 0xE0) * 4096 + (0x80 + (c / 64) % 64 - 0x80) * 64 +
            (0x80 + c % 64 - 0x80) = c := by omega
        have es : ¬ (0xD800 ≤ c ∧ c < 0xE000) := by
          unfold ValidCp at hv
          omega
        simp only [utf8EncodeCp, if_neg n1, if_neg n2, if_pos h3,
          List.cons_append, List.nil_append, decodeOne, if_neg e1, if_neg e2, if_neg e3,
          if_pos e4, decode3, if_pos e56, ecp, if_neg n2, if_neg es]
      · have n3 : ¬ (c < 0x10000) := by omega
        have hv' : c < 0x110000 := by unfold ValidCp at hv; omega
        have hb1 : c / 64 / 64 = c / 4096 := by
          rw [Nat.div_div_eq_div_mul]
        have hb2 : c / 4096 / 64 = c / 262144 := by
          rw [Nat.div_div_eq_div_mul]
        have e1 : ¬ (0xF0 + c / 262144 < 0x80) := by omega
        have e2 : ¬ (0xF0 + c / 262144 < 0xC2) := by omega
        have e3 : ¬ (0xF0 + c / 262144 < 0xE0) := by omega
        have e4 : ¬ (0xF0 + c / 262144 < 0xF0) := by omega
        have e5 : 0xF0 + c / 262144 < 0xF5 := by omega
        have e6 : isCont (0x80 + (c / 4096) % 64) := by unfold isCont; omega
        have e7 : isCont (0x80 + (c / 64) % 64) := by unfold isCont; omega
        have e8 : isCont (0x80 + c % 64) := by unfold isCont; omega
        have e678 : isCont (0x80 + (c / 4096) % 64) ∧ isCont (0x80 + (c / 64) % 64) ∧
            isCont (0x80 + c % 64) := ⟨e6, e7, e8⟩
        have ecp : (0xF0 + c / 262144 - 0xF0) * 262144 +
            (0x80 + (c / 4096) % 64 - 0x80) * 4096 + (0x80 + (c / 64) % 64 - 0x80) * 64 +
            (0x80 + c % 64 - 0x80) = c := by omega
        simp only [utf8EncodeCp, if_neg n1, if_neg n2, if_neg n3,
          List.cons_append, List.nil_append, decodeOne, if_neg e1, if_neg e2, if_neg e3,
          if_neg e4, if_pos e5, decode4, if_pos e678, ecp, if_neg n3, if_pos hv']

/-- Round trip: strict UTF-8 decoding inverts encoding on any list of Unicode
scalar values. -/
theorem utf8DecodeCps_encode (s : List Nat) (hv : ∀ c ∈ s, ValidCp c) :
    utf8DecodeCps (utf8EncodeCps s) = some s := by
  induction s with
  | nil => simp [utf8EncodeCps, utf8DecodeCps_nil]
  | cons c cs ih =>
    have hc : ValidCp c := hv c (by simp)
    have hcs : ∀ x ∈ cs, ValidCp x := fun x hx => hv x (by simp [hx])
    have he : utf8EncodeCps (c :: cs) = utf8EncodeCp c ++ utf8EncodeCps cs := by
      simp [utf8EncodeCps]
    rw [he, utf8DecodeCps_cons_some (decodeOne_encodeCp c hc (utf8EncodeCps cs))]
    rw [ih hcs]
    rfl

/-- A string ending in `.txt` (lower-cased) does not end in `.pdf`. -/
theorem endsWith_txt_not_pdf {s : String} (h : pyEndsWith s ".txt" = true) :
    pyEndsWith s ".pdf" = false := by
  unfold pyEndsWith at h ⊢
  have ht : (".txt" : String).data.reverse = ['t', 'x', 't', '.'] := rfl
  have hp : (".pdf" : String).data.reverse = ['f', 'd', 'p', '.'] := rfl
  rw [ht] at h
  rw [hp]
  cases hr : s.data.reverse with
  | nil => rw [hr] at h; simp [listPre] at h
  | cons a r1 =>
    rw [hr] at h
    simp only [listPre, Bool.and_eq_true, beq_iff_eq] at h
    obtain ⟨ha, _⟩ := h
    subst ha
    have hne : (('f' : Char) == 't') = false := rfl
    simp [listPre, hne]

/-- A string ending in `.txt` (lower-cased) does not end in `.docx`. -/
theorem endsWith_txt_not_docx {s : String} (h : pyEndsWith s ".txt" = true) :
    pyEndsWith s ".docx" = false := by
  unfold pyEndsWith at h ⊢
  have ht : (".txt" : String).data.reverse = ['t', 'x', 't', '.'] := rfl
  have hd : (".docx" : String).data.reverse = ['x', 'c', 'o', 'd', '.'] := rfl
  rw [ht] at h
  rw [hd]
  cases hr : s.data.reverse with
  | nil => rw [hr] at h; simp [listPre] at h
  | cons a r1 =>
    rw [hr] at h
    simp only [listPre, Bool.and_eq_true, beq_iff_eq] at h
    obtain ⟨ha, _⟩ := h
    subst ha
    have hne : (('x' : Char) == 't') = false := rfl
    simp [listPre, hne]

/-- Joining page texts aborts at the first page whose extraction raised,
with that page's message, regardless of how many pages preceded or follow. -/
theorem joinPages_first_error (okpages : List (List Nat)) :
    ∀ (acc m : List Nat) (rest : List (Except (List Nat) (List Nat))),
      joinPages acc (okpages.map Except.ok ++ Except.error m :: rest) = .error m := by
  induction okpages with
  | nil => intro acc m rest; simp [joinPages]
  | cons p ps ih => intro acc m rest; simp only [List.map_cons, List.cons_append, joinPages]; exact ih _ m rest

/-- Walking the entries of a page distributes over concatenation. -/
theorem walkEntries_append (l1 l2 : List DEntry) :
    walkEntries (l1 ++ l2) = walkEntries l1 ++ walkEntries l2 := by
  induction l1 with
  | nil => simp [walkEntries]
  | cons e es ih =>
    have h1 : (e :: es) ++ l2 = e :: (es ++ l2) := rfl
    rw [h1, show walkEntries (e :: (es ++ l2)) = walkEntry e ++ walkEntries (es ++ l2) from rfl,
      show walkEntries (e :: es) = walkEntry e ++ walkEntries es from rfl, ih, List.append_assoc]

/-- A folder one of whose listing pages raised contributes nothing: the
accumulated earlier pages are discarded and the folder yields `[]`. -/
theorem walkPages_error (p1 : List (Except String (List DEntry))) :
    ∀ (acc : List DriveFile) (e : String) (p2 : List (Except String (List DEntry))),
      walkPages acc (p1 ++ Except.error e :: p2) = [] := by
  induction p1 with
  | nil => intro acc e p2; simp [walkPages]
  | cons pg ps ih =>
    intro acc e p2
    cases pg with
    | error e2 => simp [walkPages]
    | ok entries => simp only [List.cons_append, walkPages]; exact ih _ e p2

/-- The parsed side of the processing loop collects exactly the files whose
processing succeeded, in discovery order. -/
theorem processAll_parsed (env : PipelineEnv) (l : List DriveFile) :
    (processAll env l).1 = l.filterMap (fun f => okPart (processFile env f)) := by
  induction l with
  | nil => rfl
  | cons f rest ih =>
    simp only [processAll, List.filterMap_cons]
    cases hp : processFile env f with
    | ok fi => simp [okPart, hp, ih]
    | error ff => simp [okPart, hp, ih]

/-- The failed side of the processing loop collects exactly the files whose
processing raised, in discovery order. -/
theorem processAll_failed (env : PipelineEnv) (l : List DriveFile) :
    (processAll env l).2 = l.filterMap (fun f => errPart (processFile env f)) := by
  induction l with
  | nil => rfl
  | cons f rest ih =>
    simp only [processAll, List.filterMap_cons]
    cases hp : processFile env f with
    | ok fi => simp [errPart, hp, ih]
    | error ff => simp [errPart, hp, ih]

/-- Every discovered file lands in exactly one of the two lists: the lengths
add up to the number of discovered files. -/
theorem processAll_length (env : PipelineEnv) (l : List DriveFile) :
    (processAll env l).1.length + (processAll env l).2.length = l.length := by
  induction l with
  | nil => rfl
  | cons f rest ih =>
    simp only [processAll]
    cases hp : processFile env f with
    | ok fi => simp only [List.length_cons]; omega
    | error ff => simp only [List.length_cons]; omega

/-- A run that authenticates, extracts a folder id and discovers at least one
file returns the summary string and stores exactly the report assembled from
the processing loop. -/
theorem load_success (env : PipelineEnv) (url : String)
    (ha : env.auth = .ok ()) (hid : ¬ (extractFolderId url = ""))
    (hfl : ¬ (walkPages [] (env.tree (extractFolderId url)) = [])) :
    load_and_parse_drive_contents env url =
      (.success ("Successfully processed " ++
          toString (processAll env (walkPages [] (env.tree (extractFolderId url)))).1.length ++
          " files. " ++
          toString (processAll env (walkPages [] (env.tree (extractFolderId url)))).2.length ++
          " failed."),
       some ⟨(processAll env (walkPages [] (env.tree (extractFolderId url)))).1,
             (processAll env (walkPages [] (env.tree (extractFolderId url)))).2,
             (walkPages [] (env.tree (extractFolderId url))).length,
             (processAll env (walkPages [] (env.tree (extractFolderId url)))).1.length⟩) := by
  unfold load_and_parse_drive_contents
  rw [ha]
  simp only [if_neg hid, if_neg hfl]

/-- Indexing with a default over the range of a list rebuilds the list. -/
theorem map_getD_range {α : Type} (l : List α) (d : α) :
    (List.range l.length).map (fun i => l.getD i d) = l := by
  induction l with
  | nil => rfl
  | cons a t ih =>
    simp only [List.length_cons, List.range_succ_eq_map, List.map_cons, List.getD_cons_zero,
      List.map_map]
    have he : ((fun i => (a :: t).getD i d) ∘ Nat.succ) = fun i => t.getD i d := by
      funext i
      simp [List.getD_cons_succ]
    rw [he, ih]

/-- C2 counterexample: on the unrecognized extension `.xyz` with byte content
that is valid UTF-8, `_parse_content` returns the decoded text, not the
unsupported-format marker, so the claim that any extension outside
`.pdf`/`.docx`/`.txt` yields the marker regardless of byte content is false. -/
theorem c2_counterexample :
    parse_content failPdf failDocx "resume.xyz" (utf8EncodeCps (cps "hello")) =
      .ok (cps "hello") ∧ cps "hello" ≠ unsupportedMarker :=
  ⟨rfl, by decide⟩

/-- C2 amended: for every filename whose extension is neither `.pdf` nor
`.docx` (case-insensitively) — including `.txt` and unrecognized extensions —
`_parse_content` attempts a strict UTF-8 decode of the bytes: it returns the
unsupported-format marker exactly when the content is not valid UTF-8, and the
decoded text otherwise. -/
theorem c2_fallback_decode (pdfO : PdfOracle) (docxO : DocxOracle)
    (fname : String) (content : List Nat)
    (hp : pyEndsWith (pyLower fname) ".pdf" = false)
    (hd : pyEndsWith (pyLower fname) ".docx" = false) :
    (utf8DecodeCps content = none →
      parse_content pdfO docxO fname content = .ok unsupportedMarker) ∧
    ∀ t, utf8DecodeCps content = some t →
      parse_content pdfO docxO fname content = .ok t := by
  constructor
  · intro hdec
    simp [parse_content, hp, hd, hdec]
  · intro t hdec
    simp [parse_content, hp, hd, hdec]

/-- C2 amended, witness: the `.xyz` file with the invalid byte `0xFF` gets the
unsupported-format marker. -/
theorem c2_fallback_decode_witness :
    parse_content failPdf failDocx "resume.xyz" [255] = .ok unsupportedMarker :=
  (c2_fallback_decode failPdf failDocx "resume.xyz" [255] (by decide) (by decide)).1 rfl

/-- C5: for every `.txt` filename, decoding the UTF-8 encoding of any text
(any sequence of Unicode scalar values) returns exactly that text, and any
byte content that is not valid UTF-8 produces the unsupported-format marker
instead of an exception (the result is an `ok` value, not a raised error). -/
theorem c5_txt_roundtrip (pdfO : PdfOracle) (docxO : DocxOracle) (fname : String)
    (ht : pyEndsWith (pyLower fname) ".txt" = true)
    (s : List Nat) (hs : ∀ c ∈ s, ValidCp c)
    (bad : List Nat) (hbad : utf8DecodeCps bad = none) :
    parse_content pdfO docxO fname (utf8EncodeCps s) = .ok s ∧
    parse_content pdfO docxO fname bad = .ok unsupportedMarker := by
  have hp := endsWith_txt_not_pdf ht
  have hd := endsWith_txt_not_docx ht
  refine ⟨?_, ?_⟩
  · simp [parse_content, hp, hd, utf8DecodeCps_encode s hs]
  · simp [parse_content, hp, hd, hbad]

/-- C5 witness: round trip on the text `hello` and marker on the byte `0xFF`,
for the file `a.txt`. -/
theorem c5_txt_roundtrip_witness :
    parse_content failPdf failDocx "a.txt" (utf8EncodeCps (cps "hello")) = .ok (cps "hello") ∧
    parse_content failPdf failDocx "a.txt" [255] = .ok unsupportedMarker :=
  c5_txt_roundtrip failPdf failDocx "a.txt" (by decide) (cps "hello") (by decide) [255] rfl

/-- C3 counterexample: in a PDF document whose middle page raises during text
extraction, the whole-document join aborts with that page's exception — the
remaining pages are not decoded and no text is returned — so the claim that a
single-page failure leaves the rest of the document completing is false. -/
theorem c3_counterexample :
    parse_content pageBoomPdf failDocx "resume.pdf" [] = .error (cps "boom") ∧
    ∀ t, parse_content pageBoomPdf failDocx "resume.pdf" [] ≠ .ok t := by
  refine ⟨rfl, ?_⟩
  intro t h
  rw [show parse_content pageBoomPdf failDocx "resume.pdf" [] = .error (cps "boom")
      from rfl] at h
  exact Except.noConfusion h

/-- C3 amended: for every `.pdf` file, a whole-document parse exception —
whether `fitz.open` itself raises or the first failing page aborts the join —
is caught by the pipeline's per-file handler and the file is surfaced in
`failed_files` with the underlying error message preserved, never treated as
empty text. -/
theorem c3_pdf_error_surfaced (env : PipelineEnv) (f : DriveFile)
    (content ws e : List Nat)
    (hpdf : pyEndsWith (pyLower f.name) ".pdf" = true)
    (hf : read_drive_file_content (env.attempts f.id) 2 = some ⟨Except.ok content, ws⟩)
    (he : env.pdfOpen content = .error e ∨
      ∃ (okpages : List (List Nat)) (m : List Nat)
        (rest : List (Except (List Nat) (List Nat))),
        env.pdfOpen content = .ok (okpages.map Except.ok ++
          Except.error m :: rest) ∧ e = m) :
    parse_content env.pdfOpen env.docxParse f.name content = .error e ∧
    processFile env f = .error ⟨f.name, e⟩ := by
  have hparse : parse_content env.pdfOpen env.docxParse f.name content = .error e := by
    rcases he with hopen | ⟨okp, m, rest, hopen, rfl⟩
    · simp [parse_content, hpdf, hopen]
    · simp [parse_content, hpdf, hopen, joinPages_first_error]
  refine ⟨hparse, ?_⟩
  simp [processFile, hf, hparse]

/-- C3 amended, witness: the three-page document whose middle page raises
`boom` surfaces as a failed file carrying exactly that message. -/
theorem c3_pdf_error_surfaced_witness :
    parse_content pageBoomEnv.pdfOpen pageBoomEnv.docxParse "r.pdf" [] = .error (cps "boom") ∧
    processFile pageBoomEnv ⟨"r.pdf", "id1"⟩ = .error ⟨"r.pdf", cps "boom"⟩ :=
  c3_pdf_error_surfaced pageBoomEnv ⟨"r.pdf", "id1"⟩ [] [] (cps "boom") (by decide) rfl
    (Or.inr ⟨[cps "a"], cps "boom", [Except.ok (cps "b")], rfl, rfl⟩)

/-- C4: the download helper always returns a status dict (never raises past
its boundary); a first-attempt success returns the accumulated bytes with no
sleeps; a failure is retried after sleeping `attempt * 2` time units (2, then
4); a success on the second or third attempt returns the accumulated bytes;
and after all three attempts fail it returns a failure dict whose message
carries the last error. -/
theorem c4_retry_policy (att : AttemptOracle) :
    (read_drive_file_content att 2).isSome = true ∧
    (∀ chunks, att 0 = .ok chunks →
      read_drive_file_content att 2 = some ⟨.ok chunks.flatten, []⟩) ∧
    (∀ e0 chunks, att 0 = .error e0 → att 1 = .ok chunks →
      read_drive_file_content att 2 = some ⟨.ok chunks.flatten, [2]⟩) ∧
    (∀ e0 e1 chunks, att 0 = .error e0 → att 1 = .error e1 → att 2 = .ok chunks →
      read_drive_file_content att 2 = some ⟨.ok chunks.flatten, [2, 4]⟩) ∧
    (∀ e0 e1 e2, att 0 = .error e0 → att 1 = .error e1 → att 2 = .error e2 →
      read_drive_file_content att 2 =
        some ⟨.error (cps "Failed to download after 3 attempts: " ++ e2), [2, 4]⟩) := by
  have hrange : List.range 3 = [0, 1, 2] := rfl
  have hmsg : cps ("Failed to download after " ++ toString (2 + 1 : Nat) ++ " attempts: ") =
      cps "Failed to download after 3 attempts: " := rfl
  refine ⟨?_, ?_, ?_, ?_, ?_⟩
  · rcases h0 : att 0 with e0 | c0
    · rcases h1 : att 1 with e1 | c1
      · rcases h2 : att 2 with e2 | c2 <;>
          simp [read_drive_file_content, hrange, readGo, h0, h1, h2]
      · simp [read_drive_file_content, hrange, readGo, h0, h1]
    · simp [read_drive_file_content, hrange, readGo, h0]
  · intro chunks h0
    simp [read_drive_file_content, hrange, readGo, h0]
  · intro e0 chunks h0 h1
    simp [read_drive_file_content, hrange, readGo, h0, h1]
  · intro e0 e1 chunks h0 h1 h2
    simp [read_drive_file_content, hrange, readGo, h0, h1, h2]
  · intro e0 e1 e2 h0 h1 h2
    simp [read_drive_file_content, hrange, readGo, h0, h1, h2, hmsg]

/-- C4 witness: the always-failing oracle exhausts the three attempts, sleeps
2 then 4 units, and reports the last error inside the failure message. -/
theorem c4_retry_policy_witness :
    read_drive_file_content failAttempts 2 =
      some ⟨.error (cps "Failed to download after 3 attempts: " ++ cps "e2"), [2, 4]⟩ :=
  (c4_retry_policy failAttempts).2.2.2.2 (cps "e0") (cps "e1") (cps "e2") rfl rfl rfl

/-- C6: each of the three fatal outcomes — a credential/initialization
failure, an unextractable folder reference, and an empty discovered
inventory — returns the structured `{status: error, message}` value and
performs no session-state write: no `drive_data` report, partial or
otherwise, is stored. -/
theorem c6_fatal_errors_store_nothing (env : PipelineEnv) (url : String) :
    (∀ e, env.auth = .error e →
      load_and_parse_drive_contents env url =
        (.errorDict ("A critical error occurred: " ++ e), none)) ∧
    (env.auth = .ok () → extractFolderId url = "" →
      load_and_parse_drive_contents env url =
        (.errorDict ("A critical error occurred: " ++
          "Could not extract a valid Folder ID from the provided URL."), none)) ∧
    (env.auth = .ok () → ¬ (extractFolderId url = "") →
      walkPages [] (env.tree (extractFolderId url)) = [] →
      load_and_parse_drive_contents env url =
        (.errorDict "No files found in the folder or its subfolders.", none)) := by
  refine ⟨?_, ?_, ?_⟩
  · intro e ha
    unfold load_and_parse_drive_contents
    rw [ha]
  · intro ha hid
    unfold load_and_parse_drive_contents
    rw [ha]
    simp only [if_pos hid]
  · intro ha hid hempty
    unfold load_and_parse_drive_contents
    rw [ha]
    simp only [if_neg hid, if_pos hempty]

/-- C6 witness: the empty folder URL fails folder-ID extraction, returns the
structured error and stores nothing. -/
theorem c6_fatal_errors_store_nothing_witness :
    load_and_parse_drive_contents sampleEnv "" =
      (.errorDict ("A critical error occurred: " ++
        "Could not extract a valid Folder ID from the provided URL."), none) :=
  (c6_fatal_errors_store_nothing sampleEnv "").2.1 rfl (by decide)

/-- C1: every run that reaches the per-file loop (authentication succeeded, a
folder id was extracted and the inventory is non-empty) stores a report in
which the parsed and failed lists are exactly the two projections of the
processing loop over the discovered files — each discovered entry is routed
into exactly one of them — and `len(parsed) + len(failed)` equals both the
inventory size and the stored `total_files`. -/
theorem c1_every_file_partitioned (env : PipelineEnv) (url : String)
    (ha : env.auth = .ok ()) (hid : ¬ (extractFolderId url = ""))
    (hfl : ¬ (walkPages [] (env.tree (extractFolderId url)) = [])) :
    (load_and_parse_drive_contents env url).2 =
      some ⟨(processAll env (walkPages [] (env.tree (extractFolderId url)))).1,
            (processAll env (walkPages [] (env.tree (extractFolderId url)))).2,
            (walkPages [] (env.tree (extractFolderId url))).length,
            (processAll env (walkPages [] (env.tree (extractFolderId url)))).1.length⟩ ∧
    (processAll env (walkPages [] (env.tree (extractFolderId url)))).1 =
      (walkPages [] (env.tree (extractFolderId url))).filterMap
        (fun f => okPart (processFile env f)) ∧
    (processAll env (walkPages [] (env.tree (extractFolderId url)))).2 =
      (walkPages [] (env.tree (extractFolderId url))).filterMap
        (fun f => errPart (processFile env f)) ∧
    (processAll env (walkPages [] (env.tree (extractFolderId url)))).1.length +
      (processAll env (walkPages [] (env.tree (extractFolderId url)))).2.length =
      (walkPages [] (env.tree (extractFolderId url))).length := by
  refine ⟨?_, processAll_parsed env _, processAll_failed env _, processAll_length env _⟩
  rw [load_success env url ha hid hfl]

/-- C1 witness: the one-file folder `ROOT` stores a report with one parsed
file, no failed file, and `total_files = 1`. -/
theorem c1_every_file_partitioned_witness :
    (load_and_parse_drive_contents sampleEnv "ROOT").2 =
      some ⟨(processAll sampleEnv (walkPages [] (sampleEnv.tree "ROOT"))).1,
            (processAll sampleEnv (walkPages [] (sampleEnv.tree "ROOT"))).2,
            (walkPages [] (sampleEnv.tree "ROOT")).length,
            (processAll sampleEnv (walkPages [] (sampleEnv.tree "ROOT"))).1.length⟩ ∧
    (processAll sampleEnv (walkPages [] (sampleEnv.tree "ROOT"))).1 =
      (walkPages [] (sampleEnv.tree "ROOT")).filterMap
        (fun f => okPart (processFile sampleEnv f)) ∧
    (processAll sampleEnv (walkPages [] (sampleEnv.tree "ROOT"))).2 =
      (walkPages [] (sampleEnv.tree "ROOT")).filterMap
        (fun f => errPart (processFile sampleEnv f)) ∧
    (processAll sampleEnv (walkPages [] (sampleEnv.tree "ROOT"))).1.length +
      (processAll sampleEnv (walkPages [] (sampleEnv.tree "ROOT"))).2.length =
      (walkPages [] (sampleEnv.tree "ROOT")).length :=
  c1_every_file_partitioned sampleEnv "ROOT" rfl (by decide) (by decide)

/-- C7: a container one of whose listing pages raises contributes zero
entries for its whole subtree (the walker returns `[]` for it, a value, so no
exception escapes and no failure is surfaced in the result), while the
traversal of its siblings and of the enclosing page continues and returns
their entries unchanged. -/
theorem c7_listing_failure_contained (pages : List (Except String (List DEntry)))
    (before after2 : List DEntry)
    (h : ∃ (p1 : List (Except String (List DEntry))) (e : String)
      (p2 : List (Except String (List DEntry))), pages = p1 ++ Except.error e :: p2) :
    walkEntry (.folder pages) = [] ∧
    walkEntries (before ++ DEntry.folder pages :: after2) =
      walkEntries before ++ walkEntries after2 := by
  obtain ⟨p1, e, p2, rfl⟩ := h
  have h0 : walkEntry (.folder (p1 ++ Except.error e :: p2)) = [] := by
    show walkPages [] (p1 ++ Except.error e :: p2) = []
    exact walkPages_error p1 [] e p2
  refine ⟨h0, ?_⟩
  rw [show before ++ DEntry.folder (p1 ++ Except.error e :: p2) :: after2 =
        before ++ [DEntry.folder (p1 ++ Except.error e :: p2)] ++ after2 from by simp,
      walkEntries_append, walkEntries_append]
  rw [show walkEntries [DEntry.folder (p1 ++ Except.error e :: p2)] =
        walkEntry (DEntry.folder (p1 ++ Except.error e :: p2)) ++ walkEntries [] from rfl]
  rw [h0]
  simp [walkEntries]

/-- C7 witness: a sibling file before and after a denied sub-folder (whose
second page raises) both survive; the denied sub-folder contributes nothing,
even though its first page had listed a file. -/
theorem c7_listing_failure_contained_witness :
    walkEntry (.folder [Except.ok [DEntry.file "x" "1"], Except.error "denied"]) = [] ∧
    walkEntries ([DEntry.file "a" "2"] ++
        DEntry.folder [Except.ok [DEntry.file "x" "1"], Except.error "denied"] ::
        [DEntry.file "b" "3"]) =
      walkEntries [DEntry.file "a" "2"] ++ walkEntries [DEntry.file "b" "3"] :=
  c7_listing_failure_contained
    [Except.ok [DEntry.file "x" "1"], Except.error "denied"]
    [DEntry.file "a" "2"] [DEntry.file "b" "3"]
    ⟨[Except.ok [DEntry.file "x" "1"]], "denied", [], rfl⟩

/-- C8: after two successive successful runs, the `drive_data` slot holds
exactly the report of the second run — whatever the first run stored (and
whatever was in the slot before) is replaced wholesale, with no merge or
append of earlier parsed or failed entries. -/
theorem c8_wholesale_replacement (env1 env2 : PipelineEnv) (url1 url2 : String)
    (s0 : Option DriveData)
    (ha1 : env1.auth = .ok ()) (hid1 : ¬ (extractFolderId url1 = ""))
    (hfl1 : ¬ (walkPages [] (env1.tree (extractFolderId url1)) = []))
    (ha2 : env2.auth = .ok ()) (hid2 : ¬ (extractFolderId url2 = ""))
    (hfl2 : ¬ (walkPages [] (env2.tree (extractFolderId url2)) = [])) :
    ingestState env2 url2 (ingestState env1 url1 s0) =
      some ⟨(processAll env2 (walkPages [] (env2.tree (extractFolderId url2)))).1,
            (processAll env2 (walkPages [] (env2.tree (extractFolderId url2)))).2,
            (walkPages [] (env2.tree (extractFolderId url2))).length,
            (processAll env2 (walkPages [] (env2.tree (extractFolderId url2)))).1.length⟩ := by
  show ingestState env2 url2 (ingestState env1 url1 s0) = _
  unfold ingestState
  rw [load_success env2 url2 ha2 hid2 hfl2]

/-- C8 witness: ingesting `ROOT` and then `ROOT2` (different folders, both
successful) leaves exactly the `ROOT2` report in the slot. -/
theorem c8_wholesale_replacement_witness :
    ingestState sampleEnv2 "ROOT2" (ingestState sampleEnv "ROOT" none) =
      some ⟨(processAll sampleEnv2 (walkPages [] (sampleEnv2.tree "ROOT2"))).1,
            (processAll sampleEnv2 (walkPages [] (sampleEnv2.tree "ROOT2"))).2,
            (walkPages [] (sampleEnv2.tree "ROOT2")).length,
            (processAll sampleEnv2 (walkPages [] (sampleEnv2.tree "ROOT2"))).1.length⟩ :=
  c8_wholesale_replacement sampleEnv sampleEnv2 "ROOT" "ROOT2" none
    rfl (by decide) (by decide) rfl (by decide) (by decide)

/-- C9 (modelled from the spec; the parallel code was removed from the
source): fetching any file set through the capacity-10 pool along any
feasible completion order yields a report in completion order containing
exactly one `(filename, payload-or-null)` pair per discovered file: its
length is the number of files and, as a multiset, it is exactly the per-file
pair list. -/
theorem c9_bounded_parallel (fetch : DriveFile → Option (List Nat))
    (files : List DriveFile) (order : List Nat)
    (hfeas : poolFeasible 10 order files.length) :
    (boundedParallelFetch fetch files order).length = files.length ∧
    (boundedParallelFetch fetch files order).Perm
      (files.map fun f => (f.name, fetch f)) := by
  obtain ⟨hperm, _⟩ := hfeas
  have hlen : order.length = files.length := by simpa using hperm.length_eq
  constructor
  · simp [boundedParallelFetch, hlen]
  · have h2 := hperm.map fun i => ((files.getD i ⟨"", ""⟩).name, fetch (files.getD i ⟨"", ""⟩))
    refine h2.trans ?_
    have h3 : (List.range files.length).map
        (fun i => ((files.getD i ⟨"", ""⟩).name, fetch (files.getD i ⟨"", ""⟩))) =
        files.map fun f => (f.name, fetch f) := by
      rw [show (fun i => ((files.getD i ⟨"", ""⟩).name, fetch (files.getD i ⟨"", ""⟩))) =
            (fun f => (f.name, fetch f)) ∘ (fun i => files.getD i ⟨"", ""⟩) from rfl]
      rw [← List.map_map, map_getD_range]
    rw [h3]

/-- C9 witness: fifteen files through the capacity-10 pool, with the
submission order as completion order, give exactly fifteen pairs, one per
file. -/
theorem c9_bounded_parallel_witness :
    (boundedParallelFetch (fun f => some (cps f.name)) filesFifteen (List.range 15)).length =
      filesFifteen.length ∧
    (boundedParallelFetch (fun f => some (cps f.name)) filesFifteen (List.range 15)).Perm
      (filesFifteen.map fun f => (f.name, some (cps f.name))) :=
  c9_bounded_parallel (fun f => some (cps f.name)) filesFifteen (List.range 15)
    ⟨List.Perm.refl _, by decide⟩

/-- C10: a successfully fetched file whose decoded text merely contains the
phrase `Unsupported file type` is re-raised as a `TypeError` and recorded in
`failed_files` (with the whole text as the error), not in `parsed_files` —
routing is decided by substring matching on the decoded text, so ordinary
`.txt` content containing the phrase is misclassified as a failure. -/
theorem c10_marker_phrase_misroutes (env : PipelineEnv) (f : DriveFile)
    (content ws s : List Nat)
    (hf : read_drive_file_content (env.attempts f.id) 2 = some ⟨Except.ok content, ws⟩)
    (hp : pyEndsWith (pyLower f.name) ".pdf" = false)
    (hd : pyEndsWith (pyLower f.name) ".docx" = false)
    (hdec : utf8DecodeCps content = some s)
    (hsub : containsSub (cps "Unsupported file type") s = true) :
    processFile env f = .error ⟨f.name, s⟩ ∧
    ∀ rest : List DriveFile, processAll env (f :: rest) =
      ((processAll env rest).1, ⟨f.name, s⟩ :: (processAll env rest).2) := by
  have hparse : parse_content env.pdfOpen env.docxParse f.name content = .ok s := by
    simp [parse_content, hp, hd, hdec]
  have hpf : processFile env f = .error ⟨f.name, s⟩ := by
    simp [processFile, hf, hparse, hsub]
  exact ⟨hpf, fun rest => by simp [processAll, hpf]⟩

/-- C10 witness: a valid UTF-8 `.txt` file whose content contains the phrase
inside ordinary text ends up in the failed list, carrying its own full text
as the error. -/
theorem c10_marker_phrase_misroutes_witness :
    processFile markerEnv ⟨"note.txt", "f9"⟩ =
      .error ⟨"note.txt", cps "this resume contains Unsupported file type as text"⟩ ∧
    ∀ rest : List DriveFile, processAll markerEnv (⟨"note.txt", "f9"⟩ :: rest) =
      ((processAll markerEnv rest).1,
       ⟨"note.txt", cps "this resume contains Unsupported file type as text"⟩ ::
         (processAll markerEnv rest).2) :=
  c10_marker_phrase_misroutes markerEnv ⟨"note.txt", "f9"⟩
    (utf8EncodeCps (cps "this resume contains Unsupported file type as text")) []
    (cps "this resume contains Unsupported file type as text")
    rfl (by decide) (by decide) (by decide) (by decide)
